import Mathlib

/-
Verification of the wst WebSocket tunnel (client dial configuration, server
lifecycle, buffer pool, and the timed copy engine) against its specification.
Go strings are modelled as lists of characters, Go errors as their message
strings, and stateful code as explicit state passing.
-/

set_option maxRecDepth 4096

/-- GoStr models a Go string as a list of characters. -/
abbrev GoStr := List Char

/-- gs converts a Lean string literal to the GoStr model. -/
def gs (s : String) : GoStr := s.toList

/-- indexOfChar models bytealg.IndexByteString: the index of the first
occurrence of a character, or -1 when absent. -/
def indexOfChar (s : GoStr) (b : Char) : Int :=
  match s.findIdx? (fun c => c = b) with
  | none => -1
  | some i => (i : Int)

/-- lastIndexOfChar models the stdlib helper last: the index of the last
occurrence of a character, or -1 when absent. -/
def lastIndexOfChar (s : GoStr) (b : Char) : Int :=
  match s.reverse.findIdx? (fun c => c = b) with
  | none => -1
  | some j => (s.length : Int) - 1 - (j : Int)

/-- addrErrStr models (&net.AddrError\x7bErr: why, Addr: addr\x7d).Error(),
which prefixes "address <addr>: " exactly when addr is nonempty. -/
def addrErrStr (addr why : GoStr) : GoStr :=
  if addr = [] then why else gs "address " ++ addr ++ gs ": " ++ why

/-- The missing-port message constant of net.SplitHostPort. -/
def missingPortMsg : GoStr := gs "missing port in address"

/-- The too-many-colons message constant of net.SplitHostPort. -/
def tooManyColonsMsg : GoStr := gs "too many colons in address"

/-- splitHostPortFinish models the shared tail of net.SplitHostPort: the
stray-bracket scans from offsets j and k, then taking the port after the
last colon (at index i). -/
def splitHostPortFinish (hostPort host : GoStr) (i j k : Nat) :
    Except GoStr (GoStr × GoStr) :=
  if 0 ≤ indexOfChar (hostPort.drop j) '[' then
    .error (addrErrStr hostPort (gs "unexpected open bracket in address"))
  else if 0 ≤ indexOfChar (hostPort.drop k) ']' then
    .error (addrErrStr hostPort (gs "unexpected close bracket in address"))
  else
    .ok (host, hostPort.drop (i + 1))

/-- splitHostPort models net.SplitHostPort faithfully, returning either the
host and port or the message string of the returned AddrError.  Bracket
messages have their quote marks elided. -/
def splitHostPort (hostPort : GoStr) : Except GoStr (GoStr × GoStr) :=
  let i := lastIndexOfChar hostPort ':'
  if i < 0 then
    .error (addrErrStr hostPort missingPortMsg)
  else
    let iN := i.toNat
    if hostPort.headD ' ' = '[' then
      let e := indexOfChar hostPort ']'
      if e < 0 then
        .error (addrErrStr hostPort (gs "missing close bracket in address"))
      else
        let eN := e.toNat
        if eN + 1 = hostPort.length then
          .error (addrErrStr hostPort missingPortMsg)
        else if eN + 1 = iN then
          splitHostPortFinish hostPort ((hostPort.drop 1).take (eN - 1)) iN 1 (eN + 1)
        else if hostPort.getD (eN + 1) ' ' = ':' then
          .error (addrErrStr hostPort tooManyColonsMsg)
        else
          .error (addrErrStr hostPort missingPortMsg)
    else
      let host := hostPort.take iN
      if 0 ≤ indexOfChar host ':' then
        .error (addrErrStr hostPort tooManyColonsMsg)
      else
        splitHostPortFinish hostPort host iN 0 0

/-- defaultPort, from src/client/main.go lines 208-213. -/
def defaultPort (tlsEnabled : Bool) : GoStr :=
  if tlsEnabled then gs "443" else gs "80"

/-- parseAddrAndPort, from src/client/main.go lines 197-206: splits the
address; the default-port branch is taken only when the split error message
equals the bare string "missing port in address". -/
def parseAddrAndPort (addr : GoStr) (tlsEnabled : Bool) :
    Except GoStr (GoStr × GoStr) :=
  match splitHostPort addr with
  | .error e =>
    if e = missingPortMsg then
      .ok (addr, defaultPort tlsEnabled)
    else
      .error (gs "failed to split host and port: " ++ e)
  | .ok (domain, port) => .ok (domain, port)

/-- hasLeadingSlash models strings.HasPrefix(path, "/"): true exactly when
the first character is a slash. -/
def hasLeadingSlash : GoStr → Bool
  | [] => false
  | c :: _ => c = '/'

/-- ensureLeadingSlash, from src/client/main.go lines 215-220. -/
def ensureLeadingSlash (path : GoStr) : GoStr :=
  if hasLeadingSlash path then path else gs "/" ++ path

/-- NetDialer models net.Dialer; only the timeout field is configured in the
source (src/client/main.go defaultDialer). -/
structure NetDialer where
  timeoutSec : Int
deriving DecidableEq, Repr

/-- defaultDialer, from src/client/main.go lines 48-50. -/
def defaultDialer : NetDialer := { timeoutSec := 5 }

/-- ConnectAddrConfig, from src/client/main.go lines 52-54. -/
structure ConnectAddrConfig where
  Addr : GoStr
deriving DecidableEq, Repr

/-- ConnectAddrConfig.CloneC models ConnectAddrConfig.Clone: a field-wise
copy of the structure. -/
def ConnectAddrConfig.CloneC (c : ConnectAddrConfig) : ConnectAddrConfig :=
  { Addr := c.Addr }

/-- ConnectDialConfig, from src/client/main.go lines 62-69; the nilable
dialer pointer is an Option. -/
structure ConnectDialConfig where
  Dialer : Option NetDialer
  Host : GoStr
  Path : GoStr
  ServerName : GoStr
  TLS : Bool
  Insecure : Bool
deriving DecidableEq, Repr

/-- ConnectDialConfig.CloneC models ConnectDialConfig.Clone, which copies
the whole structure value (clone := *c). -/
def ConnectDialConfig.CloneC (c : ConnectDialConfig) : ConnectDialConfig := c

/-- ConnectConfig, from src/client/main.go lines 82-85: the embedded address
and dial configurations. -/
structure ConnectConfig where
  addrCfg : ConnectAddrConfig
  dialCfg : ConnectDialConfig
deriving DecidableEq, Repr

/-- ConnectConfig.CloneC models ConnectConfig.Clone, cloning both embedded
configurations. -/
def ConnectConfig.CloneC (c : ConnectConfig) : ConnectConfig :=
  { addrCfg := c.addrCfg.CloneC, dialCfg := c.dialCfg.CloneC }

/-- zeroConnectConfig is the Go zero value of ConnectConfig. -/
def zeroConnectConfig : ConnectConfig :=
  { addrCfg := { Addr := [] }
    dialCfg := { Dialer := none, Host := [], Path := [], ServerName := []
                 TLS := false, Insecure := false } }

/-- URLParts models the fields of a parsed url.URL that the source reads. -/
structure URLParts where
  scheme : GoStr
  host : GoStr
  path : GoStr
deriving DecidableEq, Repr

/-- ConnectOption models the option-functions of src/client/main.go lines
96-140 as data, one constructor per option builder. -/
inductive ConnectOption where
  | withURL (u : URLParts)
  | withAddr (addr : GoStr)
  | withHost (host : GoStr)
  | withPath (path : GoStr)
  | withDialTLS (serverName : GoStr) (insecure : Bool)
  | withDialer (d : NetDialer)
deriving DecidableEq, Repr

/-- applyOption runs one option-function on a config draft, following the
bodies of WithURL, WithAddr, WithHost, WithPath, WithDialTLS, WithDialer. -/
def applyOption (c : ConnectConfig) : ConnectOption → ConnectConfig
  | .withURL u =>
    let c := { c with addrCfg.Addr := u.host, dialCfg.Path := u.path }
    if u.scheme = gs "wss" then
      { c with dialCfg.TLS := true, dialCfg.ServerName := u.host }
    else
      { c with dialCfg.TLS := false }
  | .withAddr addr => { c with addrCfg.Addr := addr }
  | .withHost host => { c with dialCfg.Host := host }
  | .withPath path => { c with dialCfg.Path := path }
  | .withDialTLS serverName insecure =>
    { c with dialCfg.TLS := true, dialCfg.ServerName := serverName
             dialCfg.Insecure := insecure }
  | .withDialer d => { c with dialCfg.Dialer := some d }

/-- SplitedConnectDialConfig, from src/client/main.go lines 71-75: the split
address and port plus the (pointed-to, hence post-mutation) dial config. -/
structure SplitedConnectDialConfig where
  cfg : ConnectDialConfig
  splitAddr : GoStr
  splitPort : GoStr
deriving DecidableEq, Repr

/-- generateDialConfig, from src/client/main.go lines 165-195.  The Go code
mutates the local cfg after storing its pointer in splitCfg, so the returned
structure carries the fully defaulted config. -/
def generateDialConfig (addr : GoStr) (cfg0 : ConnectDialConfig) :
    Except GoStr SplitedConnectDialConfig :=
  let cfg1 := match cfg0.Dialer with
    | none => { cfg0 with Dialer := some defaultDialer }
    | some _ => cfg0
  match parseAddrAndPort addr cfg1.TLS with
  | .error e => .error e
  | .ok (addr2, port) =>
    let cfg2 :=
      if cfg1.Host = [] then
        if cfg1.ServerName ≠ [] then { cfg1 with Host := cfg1.ServerName }
        else { cfg1 with Host := addr2 }
      else cfg1
    let cfg3 :=
      if cfg2.ServerName = [] then { cfg2 with ServerName := cfg2.Host }
      else cfg2
    let cfg4 := { cfg3 with Path := ensureLeadingSlash cfg3.Path }
    .ok { cfg := cfg4, splitAddr := addr2, splitPort := port }

/-- TLSClientConfig models the tls.Config built in connect (src/client/
main.go lines 233-237) when cfg.TLS is set. -/
structure TLSClientConfig where
  insecureSkipVerify : Bool
  serverName : GoStr
deriving DecidableEq, Repr

/-- tlsClientConfig: connect wraps the TCP connection in TLS exactly when
cfg.TLS holds, using cfg.ServerName for verification. -/
def tlsClientConfig (c : SplitedConnectDialConfig) : Option TLSClientConfig :=
  if c.cfg.TLS then
    some { insecureSkipVerify := c.cfg.Insecure, serverName := c.cfg.ServerName }
  else
    none

/-- Ctx models a context.Context value opaquely. -/
inductive Ctx where
  | background
  | other (n : Nat)
deriving DecidableEq, Repr

/-- DialRequest records what a dial call determines before touching the
network: the context it runs under, the composed configuration, and the
outcome of generateDialConfig on it (ConnectWithConfig, lines 151-163). -/
structure DialRequest where
  ctx : Ctx
  cfg : ConnectConfig
  dialCfg : Except GoStr SplitedConnectDialConfig
deriving Repr

/-- connectWithConfigReq models the deterministic head of ConnectWithConfig:
building the split dial config from the composed ConnectConfig. -/
def connectWithConfigReq (ctx : Ctx) (cfg : ConnectConfig) : DialRequest :=
  { ctx := ctx, cfg := cfg
    dialCfg := generateDialConfig cfg.addrCfg.Addr cfg.dialCfg }

/-- Dialer, from src/client/main.go lines 282-284. -/
structure Dialer where
  config : ConnectConfig
deriving DecidableEq, Repr

/-- NewDialer, from src/client/main.go lines 286-292: options are applied to
the zero config held inside the dialer. -/
def NewDialer (options : List ConnectOption) : Dialer :=
  { config := options.foldl applyOption zeroConnectConfig }

/-- Dialer.DialContext, from src/client/main.go lines 294-300: clone the
stored config, apply the per-call options to the clone, dial with the
result.  The pair also returns the dialer state after the call. -/
def Dialer.DialContext (wc : Dialer) (ctx : Ctx)
    (options : List ConnectOption) : DialRequest × Dialer :=
  let cfg := wc.config.CloneC
  let cfg := options.foldl applyOption cfg
  (connectWithConfigReq ctx cfg, wc)

/-- Dialer.Dial, from src/client/main.go lines 302-304. -/
def Dialer.Dial (wc : Dialer) (options : List ConnectOption) :
    DialRequest × Dialer :=
  wc.DialContext Ctx.background options

/-- Dialer.DialTCP, from src/client/main.go lines 306-308. -/
def Dialer.DialTCP (wc : Dialer) (options : List ConnectOption) :
    DialRequest × Dialer :=
  wc.Dial options

/-- Dialer.DialContextTCP, from src/client/main.go lines 310-312. -/
def Dialer.DialContextTCP (wc : Dialer) (ctx : Ctx)
    (options : List ConnectOption) : DialRequest × Dialer :=
  wc.DialContext ctx options

/-- GoSlice models a Go byte-slice header: its length and capacity (the
byte contents are irrelevant to the pool invariant). -/
structure GoSlice where
  len : Nat
  cap : Nat
deriving DecidableEq, Repr

/-- restoreFullCap models the reslice (*buffer)[:cap(*buffer)] performed by
Handler.putBuffer before returning a buffer to the pool. -/
def restoreFullCap (b : GoSlice) : GoSlice := { b with len := b.cap }

/-- BufPool models the stock of a sync.Pool as the list of stored buffers. -/
abbrev BufPool := List GoSlice

/-- newPoolBuffer models the pool New function: make([]byte, size), whose
length and capacity are both size. -/
def newPoolBuffer (size : Nat) : GoSlice := { len := size, cap := size }

/-- putBuffer, from src/unnamed/part_000 lines 90-95: a non-nil buffer is
resliced to full capacity and stored; a nil buffer is ignored. -/
def putBuffer (pool : BufPool) (buffer : Option GoSlice) : BufPool :=
  match buffer with
  | none => pool
  | some b => restoreFullCap b :: pool

/-- getBuffer, from src/unnamed/part_000 lines 86-88: sync.Pool.Get either
hands out a stored buffer or falls back to the New function. -/
def getBuffer (size : Nat) (pool : BufPool) : GoSlice × BufPool :=
  match pool with
  | [] => (newPoolBuffer size, [])
  | b :: rest => (b, rest)

/-- FullCapacity states that every buffer stocked in the pool has its length
equal to its capacity. -/
def FullCapacity (pool : BufPool) : Prop := ∀ b ∈ pool, b.len = b.cap

instance (pool : BufPool) : Decidable (FullCapacity pool) := by
  unfold FullCapacity; infer_instance

/-- URLv models a parsed url.URL pointer returned by a successful
url.ParseRequestURI, which is never nil. -/
inductive URLv where
  | mk (n : Nat)
deriving DecidableEq, Repr

/-- protocolVersionHybi13 is the protocol version x/net/websocket assigns to
a server-side hybi handshake config. -/
def protocolVersionHybi13 : Nat := 13

/-- wsOrigin models x/net websocket.Origin: the Origin header is consulted
only for hybi13 configs (and a missing header reads as the empty string);
an empty origin yields a nil URL with nil error, otherwise the header is
parsed by url.ParseRequestURI, supplied here as a parameter. -/
def wsOrigin (parseRequestURI : GoStr → Except GoStr URLv) (version : Nat)
    (originHeader : GoStr) : Except GoStr (Option URLv) :=
  let origin := if version = protocolVersionHybi13 then originHeader else []
  if origin = [] then .ok none
  else
    match parseRequestURI origin with
    | .error e => .error e
    | .ok u => .ok (some u)

/-- checkOrigin, from src/unnamed/part_000 lines 56-62: a nil parsed origin
with a nil error is rejected as "null origin"; a parse error is returned as
is; otherwise the handshake proceeds (result none means no error). -/
def checkOrigin (parseRequestURI : GoStr → Except GoStr URLv) (version : Nat)
    (originHeader : GoStr) : Option GoStr :=
  match wsOrigin parseRequestURI version originHeader with
  | .error e => some e
  | .ok none => some (gs "null origin")
  | .ok (some _) => none

/-- SrvState models the signalling state of a Server (src/server/main.go):
the recorded bind error, the once-guard protecting the onListened close, and
close counters for both channels (a channel is closed when its counter is
positive; Go panics on a second close of the same channel). -/
structure SrvState where
  listenErr : Option GoStr
  onceDone : Bool
  onListenedCloses : Nat
  shutdownedCloses : Nat
deriving DecidableEq, Repr

/-- newServerState models NewServer (src/server/main.go lines 43-57): fresh
channels (no close yet), no bind error, once-guard unused. -/
def newServerState : SrvState :=
  { listenErr := none, onceDone := false
    onListenedCloses := 0, shutdownedCloses := 0 }

/-- closeOnListened, from src/server/main.go lines 59-63: the close of the
onListened channel runs under a sync.Once, so repeated calls do nothing. -/
def closeOnListened (s : SrvState) : SrvState :=
  if s.onceDone then s
  else { s with onceDone := true, onListenedCloses := s.onListenedCloses + 1 }

/-- closeShutdowned models the unguarded close(ps.shutdowned) in Serve: a
second close of an already-closed channel panics, modelled as none. -/
def closeShutdowned (s : SrvState) : Option SrvState :=
  if s.shutdownedCloses = 0 then
    some { s with shutdownedCloses := s.shutdownedCloses + 1 }
  else
    none

/-- listenAndServe, from src/server/main.go lines 95-110: a failed bind
records the error and returns it; a successful bind fires the listening
signal and then runs the HTTP server, whose Serve result is always a non-nil
error, here the parameter serveErr. -/
def listenAndServe (bind : Option GoStr) (serveErr : GoStr) (s : SrvState) :
    SrvState × GoStr :=
  match bind with
  | some e => ({ s with listenErr := some e }, e)
  | none => (closeOnListened s, serveErr)

/-- Serve, from src/server/main.go lines 86-93: runs listenAndServe and, on
the way out (deferred, LIFO), closes the shutdowned channel and then fires
the listening signal.  A panic from a double channel close is none. -/
def Serve (bind : Option GoStr) (serveErr : GoStr) (s : SrvState) :
    Option (SrvState × GoStr) :=
  let (s1, e) := listenAndServe bind serveErr s
  match closeShutdowned s1 with
  | none => none
  | some s2 => some (closeOnListened s2, e)

/-- SigOp enumerates the signalling operations the source can invoke: the
once-guarded onListened close (from Serve, listenAndServe and Shutdown) and
the raw shutdowned close (on Serve exit). -/
inductive SigOp where
  | listened
  | shutdowned
deriving DecidableEq, Repr

/-- runSigOps executes a sequence of signalling operations, stopping with
none if any of them panics. -/
def runSigOps (ops : List SigOp) (s : SrvState) : Option SrvState :=
  match ops with
  | [] => some s
  | .listened :: rest => runSigOps rest (closeOnListened s)
  | .shutdowned :: rest =>
    match closeShutdowned s with
    | none => none
    | some s2 => runSigOps rest s2

/-- CErr models the error values the copy loop can produce or observe:
io.ErrShortWrite, the "invalid write result" error, and opaque transport
errors indexed by a number. -/
inductive CErr where
  | shortWrite
  | invalidWrite
  | other (n : Nat)
deriving DecidableEq, Repr

/-- ReadEnd models the error part of a Read result: io.EOF or another read
error. -/
inductive ReadEnd where
  | eof
  | err (n : Nat)
deriving DecidableEq, Repr

/-- Iter records what the source and sink do in one iteration of the copy
loop: the read result (nr, er), the SetWriteDeadline result, and the write
result (nw, ew).  The deadline and write fields are consulted only when
nr is positive. -/
structure Iter where
  nr : Int
  er : Option ReadEnd
  dErr : Option CErr
  nw : Int
  ew : Option CErr
deriving DecidableEq, Repr

/-- readDisposition: after the (possible) write, the loop inspects the read
error: EOF stops with a nil error, another read error stops with it, and no
error continues the loop (none here). -/
def readDisposition : Option ReadEnd → Option (Option CErr)
  | some .eof => some none
  | some (.err n) => some (some (.other n))
  | none => none

/-- copyLoop models CopyBufferWithWriteTimeout (src/unnamed/part_000 lines
162-195) over a trace of per-iteration transport events, accumulating the
written count.  It returns none when the trace is exhausted with the loop
still running, and otherwise the final (written, err) pair, with a nil
terminal error as none. -/
def copyLoop : List Iter → Int → Option (Int × Option CErr)
  | [], _ => none
  | it :: rest, written =>
    if 0 < it.nr then
      match it.dErr with
      | some e => some (written, some e)
      | none =>
        let nwEw : Int × Option CErr :=
          if it.nw < 0 ∨ it.nr < it.nw then
            (0, some ((it.ew).getD .invalidWrite))
          else
            (it.nw, it.ew)
        let written2 := written + nwEw.1
        match nwEw.2 with
        | some e => some (written2, some e)
        | none =>
          if it.nr ≠ nwEw.1 then
            some (written2, some .shortWrite)
          else
            match readDisposition it.er with
            | some r => some (written2, r)
            | none => copyLoop rest written2
    else
      match readDisposition it.er with
      | some r => some (written, r)
      | none => copyLoop rest written

/-- IterOK states the contracts the claim presumes of the transports in one
iteration: setting a write deadline on the sink succeeds, and the writer
respects the io.Writer contract (0 ≤ nw ≤ nr) whenever a write happens. -/
def IterOK (it : Iter) : Prop :=
  it.dErr = none ∧ (0 < it.nr → 0 ≤ it.nw ∧ it.nw ≤ it.nr)

instance (it : Iter) : Decidable (IterOK it) := by
  unfold IterOK; infer_instance

/-- CopyTimeoutSpec is written from the words of the specification of the
timed copy engine: read; when the read yields n bytes with n positive, the
write deadline is set and those n bytes are written; a write error stops the
loop reporting it; a short write without error stops the loop with the
short-write error; a non-EOF read error stops the loop with that error; EOF
stops the loop with a nil error; the count accumulates exactly the bytes the
writer reported written. -/
inductive CopyTimeoutSpec : List Iter → Int → Int × Option CErr → Prop
  | skip (it : Iter) (rest : List Iter) (w : Int) (res : Int × Option CErr) :
      it.nr ≤ 0 → it.er = none → CopyTimeoutSpec rest w res →
      CopyTimeoutSpec (it :: rest) w res
  | eofNoData (it : Iter) (rest : List Iter) (w : Int) :
      it.nr ≤ 0 → it.er = some .eof → CopyTimeoutSpec (it :: rest) w (w, none)
  | readErrNoData (it : Iter) (rest : List Iter) (w : Int) (n : Nat) :
      it.nr ≤ 0 → it.er = some (.err n) →
      CopyTimeoutSpec (it :: rest) w (w, some (.other n))
  | writeErr (it : Iter) (rest : List Iter) (w : Int) (e : CErr) :
      0 < it.nr → it.ew = some e →
      CopyTimeoutSpec (it :: rest) w (w + it.nw, some e)
  | shortWrite (it : Iter) (rest : List Iter) (w : Int) :
      0 < it.nr → it.nw < it.nr → it.ew = none →
      CopyTimeoutSpec (it :: rest) w (w + it.nw, some .shortWrite)
  | fullWriteEOF (it : Iter) (rest : List Iter) (w : Int) :
      0 < it.nr → it.nw = it.nr → it.ew = none → it.er = some .eof →
      CopyTimeoutSpec (it :: rest) w (w + it.nw, none)
  | fullWriteReadErr (it : Iter) (rest : List Iter) (w : Int) (n : Nat) :
      0 < it.nr → it.nw = it.nr → it.ew = none → it.er = some (.err n) →
      CopyTimeoutSpec (it :: rest) w (w + it.nw, some (.other n))
  | fullWriteCont (it : Iter) (rest : List Iter) (w : Int)
      (res : Int × Option CErr) :
      0 < it.nr → it.nw = it.nr → it.ew = none → it.er = none →
      CopyTimeoutSpec rest (w + it.nw) res →
      CopyTimeoutSpec (it :: rest) w res

/-- countOp counts the occurrences of one signalling operation in a call
sequence. -/
def countOp (o : SigOp) : List SigOp → Nat
  | [] => 0
  | x :: rest => (if x = o then 1 else 0) + countOp o rest
/-- c5addr, c5cfg, c5out: a concrete dial address and configuration with
the path "ws", and the configuration generateDialConfig produces for it. -/
def c5addr : GoStr := gs "example.com:9000"

/-- The concrete input configuration for the C5 witness. -/
def c5cfg : ConnectDialConfig :=
  { Dialer := none, Host := [], Path := gs "ws", ServerName := []
    TLS := false, Insecure := false }

/-- The configuration generateDialConfig produces from c5addr and c5cfg. -/
def c5out : SplitedConnectDialConfig :=
  { cfg := { Dialer := some defaultDialer, Host := gs "example.com"
             Path := gs "/ws", ServerName := gs "example.com"
             TLS := false, Insecure := false }
    splitAddr := gs "example.com", splitPort := gs "9000" }
/-- The C6 counterexample input configuration: host and server name unset,
TLS off. -/
def c6cfgF : ConnectDialConfig :=
  { Dialer := none, Host := [], Path := gs "ws", ServerName := []
    TLS := false, Insecure := false }
/-- The C6 witness input configuration: host and server name unset, TLS
on. -/
def c6cfgT : ConnectDialConfig :=
  { Dialer := none, Host := [], Path := gs "ws", ServerName := []
    TLS := true, Insecure := false }

/-- The configuration generateDialConfig produces from the C6 witness
input. -/
def c6outT : SplitedConnectDialConfig :=
  { cfg := { Dialer := some defaultDialer, Host := gs "example.com"
             Path := gs "/ws", ServerName := gs "example.com"
             TLS := true, Insecure := false }
    splitAddr := gs "example.com", splitPort := gs "9000" }
/-- c9parse is a concrete stand-in for url.ParseRequestURI accepting one
origin. -/
def c9parse : GoStr → Except GoStr URLv :=
  fun s => if s = gs "http://a.example" then .ok (.mk 0) else .error (gs "parse error")
/-- c1Trace: a concrete trace with one full three-byte write followed by a
clean EOF read. -/
def c1Trace : List Iter :=
  [{ nr := 3, er := none, dErr := none, nw := 3, ew := none },
   { nr := 0, er := some .eof, dErr := none, nw := 0, ew := none }]

/-- CloneC is a complete copy: the cloned configuration equals the
original, field for field. -/
theorem ConnectConfig_CloneC_eq (c : ConnectConfig) : c.CloneC = c := rfl

/-- A normalized path always begins with a slash. -/
theorem hasLeadingSlash_ensure (p : GoStr) :
    hasLeadingSlash (ensureLeadingSlash p) = true := by
  unfold ensureLeadingSlash
  cases hp : hasLeadingSlash p with
  | true => simpa using hp
  | false => cases p <;> simp [hasLeadingSlash, gs]

/-- C2: the claim says an address without an explicit port resolves to port
443 (TLS) or 80 (no TLS); the code instead fails, because the error message
of net.SplitHostPort carries an "address <addr>: " prefix for nonempty
addresses and so never equals the bare comparison string "missing port in
address".  Addresses with an explicit port do return that port unchanged. -/
theorem parseAddrAndPort_default_port_bug :
    parseAddrAndPort (gs "example.com") false =
      .error (gs "failed to split host and port: address example.com: missing port in address")
  ∧ parseAddrAndPort (gs "example.com") true =
      .error (gs "failed to split host and port: address example.com: missing port in address")
  ∧ parseAddrAndPort (gs "example.com:9000") false = .ok (gs "example.com", gs "9000")
  ∧ parseAddrAndPort (gs "example.com:9000") true = .ok (gs "example.com", gs "9000") :=
  ⟨rfl, rfl, rfl, rfl⟩

/-- C3: when the listener bind fails, Serve records the bind error where
ListenErr reads it, returns that same error, and still closes the
onListened channel (exactly one close) before returning, so a waiter on
OnListened is released; the shutdowned channel is closed as well. -/
theorem Serve_bind_failure_signals (e serveErr : GoStr) :
    ∃ s, Serve (some e) serveErr newServerState = some (s, e)
      ∧ s.listenErr = some e
      ∧ s.onListenedCloses = 1
      ∧ s.shutdownedCloses = 1 :=
  ⟨_, rfl, rfl, rfl, rfl⟩

/-- C7: DialContext leaves the stored base configuration of the dialer unchanged,
the configuration actually dialled is exactly the per-call options applied
to (a clone of) the base, and a later call on the same dialer produces the
same request whether or not an earlier call with different options ran. -/
theorem dialer_base_config_isolated (wc : Dialer) (ctx1 ctx2 : Ctx)
    (opts1 opts2 : List ConnectOption) :
    (wc.DialContext ctx1 opts1).2 = wc
  ∧ (wc.DialContext ctx1 opts1).1.cfg = opts1.foldl applyOption wc.config
  ∧ ((wc.DialContext ctx1 opts1).2.DialContext ctx2 opts2).1 =
      (wc.DialContext ctx2 opts2).1
  ∧ (wc.Dial opts1).2 = wc :=
  ⟨rfl, rfl, rfl, rfl⟩

/-- C8: putBuffer reslices every returned buffer to full capacity, so the
full-capacity pool invariant is preserved however much of the buffer its
previous user consumed, and every buffer getBuffer hands out (pooled or
fresh) has its length equal to its capacity. -/
theorem bufferPool_full_capacity (size : Nat) (pool : BufPool)
    (buffer : GoSlice) (hinv : FullCapacity pool) :
    FullCapacity (putBuffer pool (some buffer))
  ∧ (getBuffer size (putBuffer pool (some buffer))).1.len =
      (getBuffer size (putBuffer pool (some buffer))).1.cap
  ∧ (getBuffer size pool).1.len = (getBuffer size pool).1.cap := by
  refine ⟨?_, ?_, ?_⟩
  · intro b hb
    rcases List.mem_cons.mp hb with h | h
    · subst h; rfl
    · exact hinv b h
  · rfl
  · cases pool with
    | nil => rfl
    | cons b rest => exact hinv b (List.mem_cons_self b rest)

/-- Witness for C8 at a concrete pool and a partially consumed buffer. -/
theorem bufferPool_full_capacity_witness :
    FullCapacity (putBuffer [GoSlice.mk 16 16] (some (GoSlice.mk 3 16)))
  ∧ (getBuffer 16 (putBuffer [GoSlice.mk 16 16] (some (GoSlice.mk 3 16)))).1.len =
      (getBuffer 16 (putBuffer [GoSlice.mk 16 16] (some (GoSlice.mk 3 16)))).1.cap
  ∧ (getBuffer 16 [GoSlice.mk 16 16]).1.len = (getBuffer 16 [GoSlice.mk 16 16]).1.cap :=
  bufferPool_full_capacity 16 [GoSlice.mk 16 16] (GoSlice.mk 3 16) (by decide)

/-- C10: the TCP-suffixed dial methods are the very same dial as their
unsuffixed counterparts, for every dialer, context and option list. -/
theorem dialTCP_equals_dial (wc : Dialer) (ctx : Ctx)
    (opts : List ConnectOption) :
    wc.DialTCP opts = wc.Dial opts
  ∧ wc.DialContextTCP ctx opts = wc.DialContext ctx opts :=
  ⟨rfl, rfl⟩

/-- runSigOps never panics while at most one shutdowned close occurs, and
the final close counters are determined by the once-guard and the operation
counts. -/
theorem runSigOps_characterization (ops : List SigOp) (s : SrvState)
    (hsd : s.shutdownedCloses + countOp .shutdowned ops ≤ 1) :
    ∃ s2, runSigOps ops s = some s2
      ∧ s2.onListenedCloses = s.onListenedCloses +
          (if s.onceDone then 0 else if countOp .listened ops = 0 then 0 else 1)
      ∧ s2.shutdownedCloses = s.shutdownedCloses + countOp .shutdowned ops := by
  induction ops generalizing s with
  | nil => exact ⟨s, rfl, by simp [countOp], by simp [countOp]⟩
  | cons op rest ih =>
    cases op with
    | listened =>
      by_cases hd : s.onceDone
      · have hs' : closeOnListened s = s := by simp [closeOnListened, hd]
        obtain ⟨s2, hrun, hl, hsc⟩ := ih s (by simpa [countOp] using hsd)
        refine ⟨s2, ?_, ?_, ?_⟩
        · simpa [runSigOps, hs'] using hrun
        · simpa [hd, countOp] using hl
        · simpa [countOp] using hsc
      · have hs' : closeOnListened s =
            { s with onceDone := true, onListenedCloses := s.onListenedCloses + 1 } := by
          simp [closeOnListened, hd]
        obtain ⟨s2, hrun, hl, hsc⟩ :=
          ih { s with onceDone := true, onListenedCloses := s.onListenedCloses + 1 }
            (by simpa [countOp] using hsd)
        refine ⟨s2, ?_, ?_, ?_⟩
        · simpa [runSigOps, hs'] using hrun
        · simp only [hl]; simp [hd, countOp]
        · simpa [countOp] using hsc
    | shutdowned =>
      have hsc0 : s.shutdownedCloses = 0 := by
        simp [countOp] at hsd; omega
      have hcnt : countOp .shutdowned rest = 0 := by
        simp [countOp] at hsd; omega
      have hcs : closeShutdowned s =
          some { s with shutdownedCloses := s.shutdownedCloses + 1 } := by
        simp [closeShutdowned, hsc0]
      obtain ⟨s2, hrun, hl, hsc⟩ :=
        ih { s with shutdownedCloses := s.shutdownedCloses + 1 }
          (by simp [hcnt, hsc0])
      refine ⟨s2, ?_, ?_, ?_⟩
      · simpa [runSigOps, hcs] using hrun
      · simpa [countOp] using hl
      · simp only [hsc]; simp [countOp, hsc0]

/-- C4: for any interleaving of signalling calls containing the single
shutdowned close of a Serve exit and at least one once-guarded onListened
close, no call panics, the onListened channel is closed exactly once and
the shutdowned channel is closed exactly once. -/
theorem signals_close_once (ops : List SigOp)
    (hs : countOp .shutdowned ops = 1) (hl : 1 ≤ countOp .listened ops) :
    ∃ s, runSigOps ops newServerState = some s
      ∧ s.onListenedCloses = 1 ∧ s.shutdownedCloses = 1 := by
  obtain ⟨s2, hrun, hlc, hsc⟩ :=
    runSigOps_characterization ops newServerState (by simp [newServerState, hs])
  refine ⟨s2, hrun, ?_, ?_⟩
  · have hne : countOp .listened ops ≠ 0 := by omega
    rw [hlc]; simp [newServerState, hne]
  · rw [hsc]; simp [newServerState, hs]

/-- Witness for C4: a duplicate-heavy call sequence still closes each
channel exactly once. -/
theorem signals_close_once_witness :
    countOp .shutdowned [SigOp.listened, .shutdowned, .listened, .listened] = 1
  ∧ 1 ≤ countOp .listened [SigOp.listened, .shutdowned, .listened, .listened]
  ∧ ∃ s, runSigOps [SigOp.listened, .shutdowned, .listened, .listened] newServerState = some s
      ∧ s.onListenedCloses = 1 ∧ s.shutdownedCloses = 1 :=
  ⟨by decide, by decide,
   signals_close_once [SigOp.listened, .shutdowned, .listened, .listened]
     (by decide) (by decide)⟩

/-- C9: under the hybi13 server handshake, checkOrigin rejects a request
whose Origin header is missing or empty with the "null origin" error,
returns the parse error of an unparsable Origin header, and accepts exactly
the requests whose Origin header is nonempty and parses successfully. -/
theorem checkOrigin_rejects_invalid (parse : GoStr → Except GoStr URLv)
    (originHeader : GoStr) :
    (originHeader = [] →
      checkOrigin parse protocolVersionHybi13 originHeader = some (gs "null origin"))
  ∧ (∀ e, originHeader ≠ [] → parse originHeader = .error e →
      checkOrigin parse protocolVersionHybi13 originHeader = some e)
  ∧ (checkOrigin parse protocolVersionHybi13 originHeader = none ↔
      originHeader ≠ [] ∧ ∃ u, parse originHeader = .ok u) := by
  refine ⟨?_, ?_, ?_⟩
  · intro h; subst h; rfl
  · intro e hne hp
    simp [checkOrigin, wsOrigin, hne, hp]
  · constructor
    · intro h
      by_cases hne : originHeader = []
      · subst hne; simp [checkOrigin, wsOrigin] at h
      · cases hp : parse originHeader with
        | error e => simp [checkOrigin, wsOrigin, hne, hp] at h
        | ok u => exact ⟨hne, u, rfl⟩
    · rintro ⟨hne, u, hp⟩
      simp [checkOrigin, wsOrigin, hne, hp]

/-- Witness for C9 at a missing header, an unparsable header and a valid
header. -/
theorem checkOrigin_rejects_invalid_witness :
    checkOrigin c9parse protocolVersionHybi13 [] = some (gs "null origin")
  ∧ checkOrigin c9parse protocolVersionHybi13 (gs "bad") = some (gs "parse error")
  ∧ checkOrigin c9parse protocolVersionHybi13 (gs "http://a.example") = none :=
  ⟨(checkOrigin_rejects_invalid c9parse []).1 rfl,
   (checkOrigin_rejects_invalid c9parse (gs "bad")).2.1 (gs "parse error")
     (by decide) (by rfl),
   ((checkOrigin_rejects_invalid c9parse (gs "http://a.example")).2.2).mpr
     ⟨by decide, URLv.mk 0, by rfl⟩⟩

/-- When generateDialConfig succeeds, its output fields are determined:
the split address and port come from parseAddrAndPort, TLS and insecure are
passed through, the path is normalized, the host defaults to the server
name or else to the split address when unset, and the server name defaults
to the (possibly defaulted) host when unset. -/
theorem generateDialConfig_ok_fields (addr : GoStr) (cfg : ConnectDialConfig)
    (out : SplitedConnectDialConfig)
    (h : generateDialConfig addr cfg = .ok out) :
    parseAddrAndPort addr cfg.TLS = .ok (out.splitAddr, out.splitPort)
  ∧ out.cfg.TLS = cfg.TLS
  ∧ out.cfg.Insecure = cfg.Insecure
  ∧ out.cfg.Path = ensureLeadingSlash cfg.Path
  ∧ out.cfg.Host = (if cfg.Host = [] then
        (if cfg.ServerName ≠ [] then cfg.ServerName else out.splitAddr)
      else cfg.Host)
  ∧ out.cfg.ServerName =
      (if cfg.ServerName = [] then out.cfg.Host else cfg.ServerName) := by
  cases hD : cfg.Dialer with
  | none =>
    simp only [generateDialConfig, hD] at h
    split at h
    · simp at h
    · rename_i domain port heq
      injection h with h2
      subst h2
      refine ⟨heq, ?_, ?_, ?_, ?_, ?_⟩ <;>
        by_cases h1 : cfg.Host = [] <;> by_cases h2 : cfg.ServerName = [] <;>
          simp [h1, h2]
  | some d =>
    simp only [generateDialConfig, hD] at h
    split at h
    · simp at h
    · rename_i domain port heq
      injection h with h2
      subst h2
      refine ⟨heq, ?_, ?_, ?_, ?_, ?_⟩ <;>
        by_cases h1 : cfg.Host = [] <;> by_cases h2 : cfg.ServerName = [] <;>
          simp [h1, h2]

/-- C5: path normalization returns a path already starting with a slash
unchanged and otherwise prepends one ("ws" becomes "/ws", the empty path
becomes "/"), and every path in a successfully generated dial configuration
begins with a slash. -/
theorem path_normalization_spec (path addr : GoStr)
    (cfg : ConnectDialConfig) (out : SplitedConnectDialConfig) :
    hasLeadingSlash (ensureLeadingSlash path) = true
  ∧ (hasLeadingSlash path = true → ensureLeadingSlash path = path)
  ∧ (hasLeadingSlash path = false → ensureLeadingSlash path = gs "/" ++ path)
  ∧ ensureLeadingSlash (gs "ws") = gs "/ws"
  ∧ ensureLeadingSlash [] = gs "/"
  ∧ (generateDialConfig addr cfg = .ok out →
      hasLeadingSlash out.cfg.Path = true) := by
  refine ⟨hasLeadingSlash_ensure path, ?_, ?_, rfl, rfl, ?_⟩
  · intro h; simp [ensureLeadingSlash, h]
  · intro h; simp [ensureLeadingSlash, h]
  · intro h
    obtain ⟨-, -, -, hpath, -, -⟩ := generateDialConfig_ok_fields addr cfg out h
    rw [hpath]
    exact hasLeadingSlash_ensure cfg.Path

/-- Witness for C5 at the path "ws" and a concrete dial configuration. -/
theorem path_normalization_spec_witness :
    hasLeadingSlash (ensureLeadingSlash (gs "ws")) = true
  ∧ ensureLeadingSlash (gs "ws") = gs "/" ++ gs "ws"
  ∧ hasLeadingSlash c5out.cfg.Path = true :=
  ⟨(path_normalization_spec (gs "ws") c5addr c5cfg c5out).1,
   (path_normalization_spec (gs "ws") c5addr c5cfg c5out).2.2.1 rfl,
   (path_normalization_spec (gs "ws") c5addr c5cfg c5out).2.2.2.2.2 rfl⟩

/-- C6 counterexample: for the dial address "example.com:9000" with host
and server name unset, generateDialConfig sets the host to "example.com",
the host portion of the split address, which differs from the dial address
itself; so the claim that both fields default to the dial address fails. -/
theorem generateDialConfig_host_not_dial_addr :
    (generateDialConfig (gs "example.com:9000") c6cfgF).map
        (fun o => (o.cfg.Host, o.cfg.ServerName)) =
      .ok (gs "example.com", gs "example.com")
  ∧ gs "example.com" ≠ gs "example.com:9000" :=
  ⟨rfl, by decide⟩

/-- C6 (amended): when the server name is unset and generateDialConfig
succeeds, an unset host defaults to the split host portion of the dial
address and the server name then defaults to that same value; and whenever
TLS is enabled, the server name handed to the TLS client config is exactly
the (possibly defaulted) host value. -/
theorem generateDialConfig_defaults (addr : GoStr) (cfg : ConnectDialConfig)
    (out : SplitedConnectDialConfig) (hSN : cfg.ServerName = [])
    (hok : generateDialConfig addr cfg = .ok out) :
    (cfg.Host = [] →
      out.cfg.Host = out.splitAddr ∧ out.cfg.ServerName = out.splitAddr)
  ∧ (out.cfg.TLS = true →
      tlsClientConfig out =
        some { insecureSkipVerify := out.cfg.Insecure
               serverName := out.cfg.Host }) := by
  obtain ⟨-, -, -, -, hhost, hsn⟩ := generateDialConfig_ok_fields addr cfg out hok
  constructor
  · intro hH
    have h1 : out.cfg.Host = out.splitAddr := by
      rw [hhost]; simp [hH, hSN]
    exact ⟨h1, by rw [hsn]; simp [hSN, h1]⟩
  · intro hTLS
    have h2 : out.cfg.ServerName = out.cfg.Host := by
      rw [hsn]; simp [hSN]
    simp [tlsClientConfig, hTLS, h2]

/-- Witness for the amended C6 at a concrete TLS-enabled configuration. -/
theorem generateDialConfig_defaults_witness :
    (c6outT.cfg.Host = c6outT.splitAddr
      ∧ c6outT.cfg.ServerName = c6outT.splitAddr)
  ∧ tlsClientConfig c6outT =
      some { insecureSkipVerify := c6outT.cfg.Insecure
             serverName := c6outT.cfg.Host } :=
  ⟨(generateDialConfig_defaults (gs "example.com:9000") c6cfgT c6outT rfl rfl).1 rfl,
   (generateDialConfig_defaults (gs "example.com:9000") c6cfgT c6outT rfl rfl).2 rfl⟩

/-- C1: whenever the copy loop terminates on a trace of well-behaved
transport events (deadline setting succeeds and the writer respects the
io.Writer count contract), its result satisfies the specified algorithm:
bytes read are written under a fresh deadline, a short write without error
stops with the short-write error, a write error stops with it, a non-EOF
read error stops with that error, EOF stops with a nil error, and the
returned count accumulates exactly the bytes reported written. -/
theorem CopyBufferWithWriteTimeout_meets_spec (trace : List Iter) (w : Int)
    (res : Int × Option CErr) (hok : ∀ it ∈ trace, IterOK it)
    (hrun : copyLoop trace w = some res) : CopyTimeoutSpec trace w res := by
  induction trace generalizing w with
  | nil => simp [copyLoop] at hrun
  | cons it rest ih =>
    obtain ⟨hd, hw⟩ := hok it (List.mem_cons_self it rest)
    have hokRest : ∀ i ∈ rest, IterOK i := fun i hi => hok i (List.mem_cons_of_mem it hi)
    by_cases hnr : 0 < it.nr
    · obtain ⟨hnw0, hnwle⟩ := hw hnr
      have hginv : ¬(it.nw < 0 ∨ it.nr < it.nw) := by omega
      simp only [copyLoop, if_pos hnr, hd, if_neg hginv] at hrun
      cases hew : it.ew with
      | some e =>
        simp only [hew] at hrun
        injection hrun with h2
        subst h2
        exact CopyTimeoutSpec.writeErr it rest w e hnr hew
      | none =>
        simp only [hew] at hrun
        by_cases heq : it.nr = it.nw
        · simp only [if_neg (by omega : ¬it.nr ≠ it.nw)] at hrun
          cases hrd : it.er with
          | none =>
            simp only [hrd, readDisposition] at hrun
            exact CopyTimeoutSpec.fullWriteCont it rest w res hnr heq.symm hew hrd
              (ih (w + it.nw) hokRest hrun)
          | some re =>
            cases re with
            | eof =>
              simp only [hrd, readDisposition] at hrun
              injection hrun with h2
              subst h2
              exact CopyTimeoutSpec.fullWriteEOF it rest w hnr heq.symm hew hrd
            | err n =>
              simp only [hrd, readDisposition] at hrun
              injection hrun with h2
              subst h2
              exact CopyTimeoutSpec.fullWriteReadErr it rest w n hnr heq.symm hew hrd
        · simp only [if_pos heq] at hrun
          injection hrun with h2
          subst h2
          exact CopyTimeoutSpec.shortWrite it rest w hnr (by omega) hew
    · have hnr2 : it.nr ≤ 0 := by omega
      simp only [copyLoop, if_neg hnr] at hrun
      cases hrd : it.er with
      | none =>
        simp only [hrd, readDisposition] at hrun
        exact CopyTimeoutSpec.skip it rest w res hnr2 hrd (ih w hokRest hrun)
      | some re =>
        cases re with
        | eof =>
          simp only [hrd, readDisposition] at hrun
          injection hrun with h2
          subst h2
          exact CopyTimeoutSpec.eofNoData it rest w hnr2 hrd
        | err n =>
          simp only [hrd, readDisposition] at hrun
          injection hrun with h2
          subst h2
          exact CopyTimeoutSpec.readErrNoData it rest w n hnr2 hrd

/-- Witness for C1 on the concrete trace. -/
theorem CopyBufferWithWriteTimeout_meets_spec_witness :
    (∀ it ∈ c1Trace, IterOK it)
  ∧ copyLoop c1Trace 0 = some (3, none)
  ∧ CopyTimeoutSpec c1Trace 0 (3, none) :=
  ⟨by decide, rfl,
   CopyBufferWithWriteTimeout_meets_spec c1Trace 0 (3, none) (by decide) rfl⟩
